import Mathlib

/-!
Shallow embedding of the crop-disease-detection inference pipeline
(backend/recommendation_engine.py, backend/model_loader.py, backend/app.py)
together with theorems checking the natural-language specification
against it.

Python dictionaries are embedded as association lists in insertion order,
with a last-binding-wins lookup (`pyDictGet`), matching the semantics of
dict literals and dict comprehensions.  Python strings are Lean `String`s;
`str.strip()` is `pyStrip`, `str.isdigit()` is `strIsdigit` (ASCII),
`needle in hay` is `strContains`, and `s.split(sep, 1)` is realised via
`firstOcc`, the index of the first occurrence of a pattern.
-/

/-- Lookup in a Python dict represented as an association list in insertion
order: a later binding of the same key shadows an earlier one, exactly as
repeated assignment to a dict key (or a dict comprehension with duplicate
keys) leaves the last value. -/
def pyDictGet {κ ν : Type} [DecidableEq κ] : List (κ × ν) → κ → Option ν
  | [], _ => none
  | (a, b) :: l, k =>
    match pyDictGet l k with
    | some v => some v
    | none => if a = k then some b else none

/-- Embedding of Python `str.strip()` (with no argument): drop whitespace
from both ends of the string. -/
def pyStrip (s : String) : String :=
  String.mk (((s.data.dropWhile Char.isWhitespace).reverse.dropWhile Char.isWhitespace).reverse)

/-- Embedding of the Python idiom `s.strip() if s else ""` used at the top
of `get_recommendation` (an empty string is falsy in Python). -/
def stripArg (s : String) : String :=
  if s = "" then "" else pyStrip s

/-- Predicate `headMatches pat l` holds when `pat` occurs at the very start of `l`. -/
def headMatches : List Char → List Char → Bool
  | [], _ => true
  | _ :: _, [] => false
  | a :: p, b :: l => a == b && headMatches p l

/-- Index of the first occurrence of `pat` inside `l`, if any; embeds the
search underlying Python `str.find` / `in` / `split(sep, 1)`. -/
def firstOcc (pat : List Char) : List Char → Option Nat
  | [] => if headMatches pat [] then some 0 else none
  | b :: l =>
    if headMatches pat (b :: l) then some 0
    else (firstOcc pat l).map (· + 1)

/-- Embedding of Python `needle in hay` for strings. -/
def strContains (hay needle : String) : Bool :=
  (firstOcc needle.data hay.data).isSome

/-- Embedding of Python `str.lower()` (ASCII case folding, which covers
every label and table key in this program). -/
def pyLower (s : String) : String :=
  String.mk (s.data.map Char.toLower)

/-- Left-to-right replacement of every non-overlapping occurrence of `pat`
by `rep`, continuing after each replaced occurrence, as Python
`str.replace` does.  Only called with non-empty patterns in this program;
an empty pattern is treated as matching nowhere. -/
def replaceList (pat rep : List Char) : List Char → List Char
  | [] => []
  | b :: l =>
    if headMatches pat (b :: l) && !pat.isEmpty then
      rep ++ replaceList pat rep (l.drop (pat.length - 1))
    else
      b :: replaceList pat rep l
termination_by l => l.length
decreasing_by
  · simp [List.length_drop]; omega
  · simp

/-- Embedding of Python `s.replace(pat, rep)`. -/
def pyReplace (s pat rep : String) : String :=
  String.mk (replaceList pat.data rep.data s.data)

/-- An advisory record: a Python dict from field names to advisory text,
kept as an association list in insertion order. -/
abbrev AdvRecord := List (String × String)

/-- The static advisory table `RECOMMENDATIONS` of
backend/recommendation_engine.py, entries in source order. -/
def RECOMMENDATIONS : List (String × AdvRecord) :=
  [ ("Apple___Apple_scab",
     [ ("disease_description", "Fungal disease causing olive-brown spots on apple leaves and fruits."),
       ("symptoms", "Velvety dark spots on leaves, distorted fruits, premature leaf fall."),
       ("treatment_organic", "Prune infected twigs and branches. Remove fallen leaves. Use sulfur-based " ++
         "fungicidal sprays and neem oil as per local guidelines."),
       ("treatment_chemical", "Apply recommended systemic fungicides following local agricultural " ++
         "department guidelines and pre-harvest intervals."),
       ("preventive_measures", "Plant resistant varieties where possible, maintain proper spacing for " ++
         "air circulation, and avoid overhead irrigation late in the day.") ]),
    ("Potato___Early_blight",
     [ ("disease_description", "Fungal disease causing concentric ring spots and defoliation in potato."),
       ("symptoms", "Dark brown concentric spots on older leaves, yellowing, premature defoliation."),
       ("treatment_organic", "Remove affected leaves. Improve soil health with compost. Use copper-based " ++
         "or biological fungicides, and ensure crop rotation."),
       ("treatment_chemical", "Apply recommended protectant fungicides (e.g., mancozeb-type compounds) " ++
         "as per local extension recommendations."),
       ("preventive_measures", "Use certified seed, avoid overhead irrigation, maintain proper spacing " ++
         "and rotate with non-host crops.") ]),
    ("Potato___Late_blight",
     [ ("disease_description", "Serious disease of potato causing leaf blight and tuber rot."),
       ("symptoms", "Water-soaked lesions on leaves, white fungal growth on undersides, tuber rot."),
       ("treatment_organic", "Remove and destroy severely infected plants. Use biofungicides and " ++
         "ensure good field drainage."),
       ("treatment_chemical", "Use recommended systemic fungicides at early signs of infection, " ++
         "following label instructions and local regulations."),
       ("preventive_measures", "Plant tolerant varieties, avoid late planting in disease-prone areas, " ++
         "ensure proper hilling and field drainage.") ]),
    ("Tomato___Late_blight",
     [ ("disease_description", "Highly destructive fungal disease of tomato foliage and fruit."),
       ("symptoms", "Dark water-soaked lesions on leaves and stems, white fungal growth in humid conditions."),
       ("treatment_organic", "Remove infected plant parts, avoid overhead irrigation, and apply approved biofungicides."),
       ("treatment_chemical", "Use recommended fungicides in rotation to avoid resistance, always " ++
         "respect safety intervals and dosage."),
       ("preventive_measures", "Plant resistant varieties, maintain field hygiene, ensure good air circulation.") ]),
    ("Tomato___Leaf_Mold",
     [ ("disease_description", "Fungal disease causing yellow spots and mold growth on leaves."),
       ("symptoms", "Yellow spots on upper leaf surfaces and olive-green mold below; leaves may curl and drop."),
       ("treatment_organic", "Improve ventilation in greenhouses, prune lower leaves, and use sulfur or " ++
         "biofungicides approved for tomato."),
       ("treatment_chemical", "Use recommended fungicides according to local guidelines and rotate active ingredients."),
       ("preventive_measures", "Avoid high humidity, provide good air movement, and avoid overhead irrigation.") ]),
    ("Corn_(maize)___Common_rust_",
     [ ("disease_description", "Rust disease of maize causing reddish-brown pustules on leaves."),
       ("symptoms", "Small elongated pustules on both leaf surfaces that later turn dark."),
       ("treatment_organic", "Use resistant varieties where available, and remove severely infected plants when feasible."),
       ("treatment_chemical", "Apply recommended fungicides if disease pressure is high, depending on local guidelines."),
       ("preventive_measures", "Rotate crops, avoid dense planting, and monitor fields regularly.") ]) ]

/-- The healthy-state advisory returned by `get_recommendation` when no
disease is indicated (recommendation_engine.py lines 107-119).  The source
builds this dict with exactly four fields: it has no
`preventive_measures` entry. -/
def healthyRecord (crop : String) : AdvRecord :=
  [ ("disease_description",
      "The " ++ crop ++ " crop appears to be healthy with no signs of disease detected."),
    ("symptoms", "No symptoms detected. The crop appears healthy."),
    ("treatment_organic",
      "No treatment needed. Continue with regular healthy crop management practices."),
    ("treatment_chemical",
      "No chemical treatment needed. Maintain good agricultural practices to " ++
      "prevent future disease outbreaks.") ]

/-- The generic fallback advisory returned for unknown diseases
(recommendation_engine.py lines 141-166), with the crop and disease names
interpolated as in the Python f-strings. -/
def genericRecord (crop disease : String) : AdvRecord :=
  [ ("disease_description",
      "The system detected a potential issue with " ++ crop ++ " crop. " ++
      "Detected condition: " ++ disease ++ ". Detailed information " ++
      "for this specific disease is not available in the rule base."),
    ("symptoms",
      "Check for spots, discoloration, wilting, or unusual growth on leaves and stems. " ++
      "Consult with an agricultural expert for specific symptoms of this condition."),
    ("treatment_organic",
      "Remove and safely dispose of heavily infected plant parts. Maintain field " ++
      "hygiene and improve soil health with compost or organic amendments. " ++
      "Consider consulting with a local agricultural extension officer for organic treatment options."),
    ("treatment_chemical",
      "Consult a local agricultural extension officer or certified agronomist for " ++
      "appropriate and safe chemical treatment based on local recommendations. " ++
      "Always follow label instructions and safety guidelines."),
    ("preventive_measures",
      "Use disease-free seed and seedlings, practice crop rotation, maintain " ++
      "proper spacing and irrigation, and monitor the field regularly. " ++
      "Implement good agricultural practices to prevent disease spread.") ]

/-- The partial-match scan of `get_recommendation` (lines 136-138): walk the
table keys in insertion order and return the first entry whose lowercased
key contains both the lowercased crop name and the lowercased disease name. -/
def keyScan (crop disease : String) : Option (String × AdvRecord) :=
  RECOMMENDATIONS.find? fun kr =>
    strContains (pyLower kr.1) (pyLower crop) && strContains (pyLower kr.1) (pyLower disease)

/-- Body of `get_recommendation` after the two `.strip()` normalisations.
Each `rec` the source tests with `if rec:` is a non-empty dict whenever the
`.get` succeeds (every table value is non-empty), so the truthiness test is
embedded as a match on the `Option`. -/
def getRecommendationCore (crop disease : String) : AdvRecord :=
  if disease = "" ∨ pyLower disease = "healthy" ∨ disease = " " then
    healthyRecord crop
  else
    match pyDictGet RECOMMENDATIONS (crop ++ "___" ++ disease) with
    | some r => r
    | none =>
      match pyDictGet RECOMMENDATIONS
          (pyReplace (pyReplace (crop ++ "___" ++ disease) " " "_") "__" "_") with
      | some r => r
      | none =>
        match keyScan crop disease with
        | some kr => kr.2
        | none => genericRecord crop disease

/-- Embedding of `get_recommendation` (recommendation_engine.py lines
99-166): strip both arguments (Python truthiness guard included), then run
the healthy check, exact lookup, normalized lookup, partial match and
generic fallback in order. -/
def get_recommendation (crop_name disease_name : String) : AdvRecord :=
  getRecommendationCore (stripArg crop_name) (stripArg disease_name)

/-- The label parser of backend/app.py lines 69-73: `"___" in
predicted_class` holds exactly when `firstOcc` finds an occurrence, and
`predicted_class.split("___", 1)` cuts at that first occurrence; when the
separator is absent the source assigns `disease_name = " "` (a single
blank). -/
def parseLabel (s : String) : String × String :=
  match firstOcc "___".data s.data with
  | some i => (String.mk (s.data.take i), String.mk (s.data.drop (i + 3)))
  | none => (s, " ")

/-- Embedding of Python `str.isdigit()` for the ASCII digit strings used as
class-index keys: non-empty and all characters digits.  This is exactly
`String.isNat`, whose truth makes `String.toNat?` succeed. -/
def strIsdigit (s : String) : Bool :=
  !s.isEmpty && s.data.all Char.isDigit

/-- A JSON scalar as deserialised from the class-index file: either a label
string or an integer index. -/
inductive PyVal : Type
  | str (s : String)
  | int (n : Int)
deriving DecidableEq

/-- Decimal value of a digit string. -/
def digitsToNat (l : List Char) : Nat :=
  l.foldl (fun n c => 10 * n + (c.toNat - 48)) 0

/-- Embedding of Python `int(k)` on the key strings of a digit-keyed
class-index file; a non-digit key makes `int` raise `ValueError`, which the
source converts into its "Failed to parse class indices" error. -/
def intOfKey (k : String) : Except String Int :=
  if strIsdigit k then Except.ok (Int.ofNat (digitsToNat k.data))
  else Except.error ("invalid literal for int() with base 10: " ++ k)

/-- The dict comprehension `{int(k): v for k, v in class_indices.items()}`
of model_loader.py line 82, with the first failing `int(k)` propagating as
the raised `ValueError`. -/
def mapKeysToInt : List (String × PyVal) → Except String (List (Int × PyVal))
  | [] => Except.ok []
  | (k, v) :: rest => do
    let i ← intOfKey k
    let r ← mapKeysToInt rest
    Except.ok ((i, v) :: r)

/-- The class-index normalisation of `load_model_and_classes`
(model_loader.py lines 73-89): reject an empty mapping, inspect the first
key, convert keys to integers when it is all digits, and otherwise invert
the mapping via `{v: k for k, v in class_indices.items()}`.  Keys of the
resulting Python dict are `PyVal`s because the two branches produce them
from different sides of the raw mapping. -/
def resolveClassIndices (raw : List (String × PyVal)) : Except String (List (PyVal × PyVal)) :=
  match raw with
  | [] => Except.error "Class indices file is empty"
  | (k0, _) :: _ =>
    if strIsdigit k0 then
      match mapKeysToInt raw with
      | Except.ok l => Except.ok (l.map fun iv => (PyVal.int iv.1, iv.2))
      | Except.error e => Except.error ("Failed to parse class indices. " ++ e)
    else
      Except.ok (raw.map fun kv => (kv.2, PyVal.str kv.1))

/-- Embedding of `os.path.join` for the absolute candidate paths built in
model_loader.py (every component here is a plain relative name, so join is
separator concatenation). -/
def pyJoin (a b : String) : String :=
  a ++ "/" ++ b

/-- The candidate list `POSSIBLE_MODEL_PATHS` of model_loader.py lines
12-17, parameterised by the two directories computed from `__file__`. -/
def possibleModelPaths (projectRoot baseDir : String) : List String :=
  [ pyJoin projectRoot (pyJoin "model" (pyJoin "saved_models" "best_model.pth")),
    pyJoin baseDir (pyJoin "model_files" (pyJoin "saved_models" "best_model.pth")),
    pyJoin "/app" (pyJoin "model_files" (pyJoin "saved_models" "best_model.pth")),
    pyJoin baseDir (pyJoin "saved_models" "best_model.pth") ]

/-- The candidate list `POSSIBLE_CLASS_PATHS` of model_loader.py lines
19-24. -/
def possibleClassPaths (projectRoot baseDir : String) : List String :=
  [ pyJoin projectRoot (pyJoin "model" (pyJoin "saved_models" "class_indices.json")),
    pyJoin baseDir (pyJoin "model_files" (pyJoin "saved_models" "class_indices.json")),
    pyJoin "/app" (pyJoin "model_files" (pyJoin "saved_models" "class_indices.json")),
    pyJoin baseDir (pyJoin "saved_models" "class_indices.json") ]

/-- The model-locator loop of model_loader.py lines 29-43: walk the
candidate list in order, keep the first path for which `os.path.exists`
holds, and when none exists fall back to `paths[0]` — which in Python
raises `IndexError` on an empty list, embedded as the `error` case.
Filesystem state enters only through the predicate `ex`. -/
def resolvePath (ex : String → Bool) (paths : List String) : Except String String :=
  match paths.find? ex with
  | some p => Except.ok p
  | none =>
    match paths with
    | [] => Except.error "IndexError: list index out of range"
    | p :: _ => Except.ok p

/-- The softmax applied to the model logits in `predict_image`
(model_loader.py line 127), over the reals: floating-point `exp` is
modelled by `Real.exp`. -/
noncomputable def softmax {n : ℕ} (x : Fin n → ℝ) : Fin n → ℝ :=
  fun i => Real.exp (x i) / ∑ j, Real.exp (x j)

/-- The maximum probability extracted by `torch.max(probs, 1)` at
model_loader.py line 128, over a non-empty class axis. -/
noncomputable def maxProb {m : ℕ} (p : Fin (m + 1) → ℝ) : ℝ :=
  Finset.univ.sup' ⟨0, Finset.mem_univ 0⟩ p

/-- Scan remembering the running best value and its index; `torch.max`
keeps the first index at which the maximum is attained. -/
def argmaxAux : Nat → Nat → ℚ → List ℚ → Nat × ℚ
  | _, bi, bv, [] => (bi, bv)
  | i, bi, bv, x :: xs =>
    if bv < x then argmaxAux (i + 1) i x xs else argmaxAux (i + 1) bi bv xs

/-- Embedding of `torch.max` along the class axis: the (first) arg-max index together
with the maximal value; `none` only for an empty axis, which a real model
output never has. -/
def torchMax : List ℚ → Option (Nat × ℚ)
  | [] => none
  | x :: xs => some (argmaxAux 1 0 x xs)

/-- The tail of `predict_image` (model_loader.py lines 128-142) from the
probability vector onward: take the arg-max index and value, check the
index against `idx_to_class`, raise `ValueError` when it is absent and
otherwise return the mapped label with the confidence.  The probability
values are taken as rationals here so that the control flow stays
executable; the softmax producing them is modelled separately by
`softmax`. -/
def predictFromProbs (probs : List ℚ) (idx_to_class : List (Int × String)) :
    Except String (String × ℚ) :=
  match torchMax probs with
  | none => Except.error "Model prediction failed: empty output"
  | some (bi, bv) =>
    match pyDictGet idx_to_class (Int.ofNat bi) with
    | none => Except.error "Predicted class index not found in class mappings."
    | some lbl => Except.ok (lbl, bv)

/-- The five field names of an `AdvisoryRecord`, in the order every full
entry of the table lists them. -/
def advisoryFields : List String :=
  [ "disease_description", "symptoms", "treatment_organic",
    "treatment_chemical", "preventive_measures" ]

/-- A successful dict lookup returns one of the stored values. -/
theorem pyDictGet_mem {κ ν : Type} [DecidableEq κ] (l : List (κ × ν)) (k : κ) (v : ν)
    (h : pyDictGet l k = some v) : ∃ a, (a, v) ∈ l := by
  induction l with
  | nil => simp [pyDictGet] at h
  | cons hd tl ih =>
    obtain ⟨a, b⟩ := hd
    simp only [pyDictGet] at h
    cases htl : pyDictGet tl k with
    | some w =>
      rw [htl] at h
      obtain ⟨a2, hmem⟩ := ih (htl.trans (by injection h with h2; rw [h2]))
      exact ⟨a2, List.mem_cons_of_mem _ hmem⟩
    | none =>
      rw [htl] at h
      by_cases hk : a = k
      · simp [hk] at h
        exact ⟨a, by simp [h]⟩
      · simp [hk] at h

/-- Every record stored in the advisory table carries a non-empty
disease description. -/
theorem table_desc_ok : ∀ kr ∈ RECOMMENDATIONS,
    ∃ v, pyDictGet kr.2 "disease_description" = some v ∧ v ≠ "" := by
  intro kr h
  fin_cases h <;> exact ⟨_, rfl, by decide⟩

/-- Dropping a satisfied-prefix twice is the same as dropping it once. -/
theorem dropWhile_idem (p : Char → Bool) (l : List Char) :
    (l.dropWhile p).dropWhile p = l.dropWhile p := by
  induction l with
  | nil => rfl
  | cons a l ih =>
    by_cases h : p a <;> simp [List.dropWhile_cons, h, ih]

/-- The head surviving a `dropWhile` fails the predicate. -/
theorem dropWhile_head_false (p : Char → Bool) (l : List Char) (b : Char) (t : List Char)
    (h : l.dropWhile p = b :: t) : p b = false := by
  induction l with
  | nil => simp [List.dropWhile] at h
  | cons a l ih =>
    by_cases ha : p a
    · rw [List.dropWhile_cons_of_pos ha] at h
      exact ih h
    · rw [List.dropWhile_cons_of_neg ha] at h
      cases h
      exact Bool.of_not_eq_true ha

/-- A list whose head (if any) fails the predicate is unchanged by
`dropWhile`. -/
theorem dropWhile_eq_self (p : Char → Bool) (l : List Char)
    (h : ∀ b t, l = b :: t → p b = false) : l.dropWhile p = l := by
  cases l with
  | nil => rfl
  | cons b t => exact List.dropWhile_cons_of_neg (by simp [h b t rfl])

/-- Stripping is idempotent. -/
theorem pyStrip_idem (s : String) : pyStrip (pyStrip s) = pyStrip s := by
  obtain ⟨l⟩ := s
  show String.mk _ = String.mk _
  congr 1
  set p := Char.isWhitespace with hp
  set l1 := l.dropWhile p with hl1
  have hl1prop : ∀ b t, l1 = b :: t → p b = false := by
    intro b t h
    exact dropWhile_head_false p l b t (by rw [← hl1]; exact h)
  have hl2 : ∀ b t, (l1.reverse.dropWhile p).reverse = b :: t → p b = false := by
    intro b t h
    have hu : l1.reverse = l1.reverse.takeWhile p ++ l1.reverse.dropWhile p :=
      (List.takeWhile_append_dropWhile p l1.reverse).symm
    have hpre : l1 = (l1.reverse.dropWhile p).reverse ++ (l1.reverse.takeWhile p).reverse := by
      have h2 := congrArg List.reverse hu
      rw [List.reverse_reverse, List.reverse_append] at h2
      exact h2
    rw [h] at hpre
    exact hl1prop b _ (by simpa using hpre)
  calc ((((l1.reverse.dropWhile p).reverse).dropWhile p).reverse.dropWhile p).reverse
      = (((l1.reverse.dropWhile p).reverse).reverse.dropWhile p).reverse := by
        rw [dropWhile_eq_self p _ hl2]
    _ = ((l1.reverse.dropWhile p).dropWhile p).reverse := by rw [List.reverse_reverse]
    _ = (l1.reverse.dropWhile p).reverse := by rw [dropWhile_idem]

/-- The stripped form of an all-whitespace string is empty. -/
theorem pyStrip_all_ws (s : String) (h : ∀ c ∈ s.data, c.isWhitespace) :
    pyStrip s = "" := by
  obtain ⟨l⟩ := s
  show String.mk _ = String.mk []
  congr 1
  have h1 : l.dropWhile Char.isWhitespace = [] := List.dropWhile_eq_nil_iff.mpr h
  simp [h1]

/-- Normalising an argument twice through the `s.strip() if s else ""`
idiom is the same as normalising it once. -/
theorem stripArg_pyStrip (s : String) : stripArg (pyStrip s) = stripArg s := by
  simp only [stripArg]
  by_cases hs : s = ""
  · subst hs
    rfl
  · rw [if_neg hs]
    by_cases hps : pyStrip s = ""
    · rw [if_pos hps, hps]
    · rw [if_neg hps, pyStrip_idem]

/-- Matching `headMatches` recognises exactly the lists beginning with the
pattern. -/
theorem headMatches_iff (pat : List Char) : ∀ l : List Char,
    headMatches pat l = true ↔ ∃ t, l = pat ++ t := by
  induction pat with
  | nil => intro l; simp [headMatches]
  | cons a p ih =>
    intro l
    cases l with
    | nil =>
      simp only [headMatches]
      constructor
      · intro h; cases h
      · rintro ⟨t, ht⟩; cases ht
    | cons b t =>
      simp only [headMatches, Bool.and_eq_true, beq_iff_eq, ih]
      constructor
      · rintro ⟨hab, u, hu⟩
        exact ⟨u, by rw [← hab, hu]; rfl⟩
      · rintro ⟨u, hu⟩
        rw [List.cons_append] at hu
        injection hu with h1 h2
        exact ⟨h1.symm, u, h2⟩

/-- A found first occurrence decomposes the list there, lies within it, and
is preceded by no earlier occurrence. -/
theorem firstOcc_some (pat : List Char) : ∀ (l : List Char) (i : Nat),
    firstOcc pat l = some i →
      l = l.take i ++ pat ++ l.drop (i + pat.length) ∧
      i + pat.length ≤ l.length ∧
      ∀ j, j < i → headMatches pat (l.drop j) = false := by
  intro l
  induction l with
  | nil =>
    intro i h
    simp only [firstOcc] at h
    by_cases hp : headMatches pat [] = true
    · have hpe : pat = [] := by
        cases pat with
        | nil => rfl
        | cons a q => cases hp
      rw [if_pos hp] at h
      injection h with hi
      subst hi
      simp [hpe]
    · rw [if_neg hp] at h
      cases h
  | cons b t ih =>
    intro i h
    simp only [firstOcc] at h
    by_cases hp : headMatches pat (b :: t) = true
    · rw [if_pos hp] at h
      injection h with hi
      subst hi
      obtain ⟨u, hu⟩ := (headMatches_iff pat (b :: t)).mp hp
      refine ⟨?_, ?_, ?_⟩
      · rw [List.take_zero, List.nil_append, Nat.zero_add, hu, List.drop_left]
      · rw [hu, List.length_append, Nat.zero_add]
        exact Nat.le_add_right _ _
      · intro j hj
        cases hj
    · rw [if_neg hp] at h
      cases hft : firstOcc pat t with
      | none => rw [hft] at h; cases h
      | some i2 =>
        rw [hft] at h
        injection h with hi
        have hi2 : i = i2 + 1 := by simpa using hi.symm
        subst hi2
        obtain ⟨hdec, hlen, hmin⟩ := ih i2 hft
        refine ⟨?_, ?_, ?_⟩
        · rw [List.take_succ_cons]
          have hd : (b :: t).drop (i2 + 1 + pat.length) = t.drop (i2 + pat.length) := by
            have he : i2 + 1 + pat.length = (i2 + pat.length) + 1 := by omega
            rw [he, List.drop_succ_cons]
          rw [hd, List.cons_append, List.cons_append]
          exact congrArg (b :: ·) hdec
        · simp only [List.length_cons]
          omega
        · intro j hj
          cases j with
          | zero => simpa using Bool.not_eq_true _ |>.mp hp
          | succ j2 =>
            rw [List.drop_succ_cons]
            exact hmin j2 (by omega)

/-- When no occurrence is found, the pattern starts at no position of the
list. -/
theorem firstOcc_none (pat : List Char) : ∀ l : List Char,
    firstOcc pat l = none → ∀ j, headMatches pat (l.drop j) = false := by
  intro l
  induction l with
  | nil =>
    intro h j
    simp only [firstOcc] at h
    by_cases hp : headMatches pat [] = true
    · rw [if_pos hp] at h; cases h
    · simpa using Bool.not_eq_true _ |>.mp hp
  | cons b t ih =>
    intro h j
    simp only [firstOcc] at h
    by_cases hp : headMatches pat (b :: t) = true
    · rw [if_pos hp] at h; cases h
    · rw [if_neg hp] at h
      cases hft : firstOcc pat t with
      | some i2 => rw [hft] at h; cases h
      | none =>
        cases j with
        | zero => simpa using Bool.not_eq_true _ |>.mp hp
        | succ j2 =>
          rw [List.drop_succ_cons]
          exact ih hft j2

/-- When every key is a digit string, the key-conversion comprehension
succeeds and converts each key to its decimal value. -/
theorem mapKeysToInt_ok (raw : List (String × PyVal)) :
    (∀ kv ∈ raw, strIsdigit kv.1 = true) →
    mapKeysToInt raw =
      Except.ok (raw.map fun kv => (Int.ofNat (digitsToNat kv.1.data), kv.2)) := by
  induction raw with
  | nil => intro h; rfl
  | cons hd tl ih =>
    intro h
    obtain ⟨k, v⟩ := hd
    have hk : strIsdigit k = true := h (k, v) (List.mem_cons_self _ _)
    have htl := ih fun kv hm => h kv (List.mem_cons_of_mem _ hm)
    simp only [mapKeysToInt, intOfKey, if_pos hk, htl, List.map_cons]
    rfl

/-- The label-keyed branch of the resolver inverts the mapping and never
fails, regardless of duplicate indices. -/
theorem resolve_label_keyed (k0 : String) (v0 : PyVal) (rest : List (String × PyVal))
    (h : strIsdigit k0 = false) :
    resolveClassIndices ((k0, v0) :: rest) =
      Except.ok (((k0, v0) :: rest).map fun kv => (kv.2, PyVal.str kv.1)) := by
  simp [resolveClassIndices, h]

/-- The running best index of the arg-max scan stays below the running
position, hence below the total length. -/
theorem argmaxAux_fst_lt : ∀ (xs : List ℚ) (i bi : Nat) (bv : ℚ), bi < i →
    (argmaxAux i bi bv xs).1 < i + xs.length := by
  intro xs
  induction xs with
  | nil =>
    intro i bi bv h
    simpa [argmaxAux] using h
  | cons x xs ih =>
    intro i bi bv h
    simp only [argmaxAux, List.length_cons]
    by_cases hc : bv < x
    · rw [if_pos hc]
      have h2 := ih (i + 1) i x (Nat.lt_succ_self i)
      omega
    · rw [if_neg hc]
      have h2 := ih (i + 1) bi bv (by omega)
      omega

/-- A string starting with a non-empty string is non-empty. -/
theorem append_ne_empty_left (a b : String) (h : a ≠ "") : a ++ b ≠ "" := by
  intro hc
  have hd : a.data ++ b.data = ([] : List Char) := congrArg String.data hc
  have ha : a.data = [] := (List.append_eq_nil.mp hd).1
  exact h (String.ext ha)

/-- C1: for every pair of input strings, `get_recommendation` returns (it
is a total function of its two arguments, so it terminates and raises
nothing) an advisory record whose disease_description entry is present and
is a non-empty string; no input reaches a missing-advisory state. -/
theorem get_recommendation_total (crop_name disease_name : String) :
    ∃ v, pyDictGet (get_recommendation crop_name disease_name) "disease_description" = some v ∧
      v ≠ "" := by
  rw [get_recommendation]
  generalize stripArg crop_name = crop
  generalize stripArg disease_name = disease
  rw [getRecommendationCore]
  by_cases hd : disease = "" ∨ pyLower disease = "healthy" ∨ disease = " "
  · rw [if_pos hd]
    refine ⟨_, rfl, ?_⟩
    exact append_ne_empty_left _ _ (append_ne_empty_left "The " crop (by decide))
  · rw [if_neg hd]
    cases h1 : pyDictGet RECOMMENDATIONS (crop ++ "___" ++ disease) with
    | some r =>
      obtain ⟨a, hm⟩ := pyDictGet_mem _ _ _ h1
      exact table_desc_ok (a, r) hm
    | none =>
      cases h2 : pyDictGet RECOMMENDATIONS
          (pyReplace (pyReplace (crop ++ "___" ++ disease) " " "_") "__" "_") with
      | some r =>
        obtain ⟨a, hm⟩ := pyDictGet_mem _ _ _ h2
        exact table_desc_ok (a, r) hm
      | none =>
        cases h3 : keyScan crop disease with
        | some kr =>
          exact table_desc_ok kr (List.mem_of_find?_eq_some h3)
        | none =>
          refine ⟨_, rfl, ?_⟩
          exact append_ne_empty_left _ _ (append_ne_empty_left _ _
            (append_ne_empty_left _ _ (append_ne_empty_left _ _
              (append_ne_empty_left _ _ (append_ne_empty_left
                "The system detected a potential issue with " crop (by decide))))))

/-- C2: the three no-disease conditions (empty string, "healthy" in any
case, single blank) all return the fixed healthy-state advisory
parameterised by the crop name, but that record carries only four of the
five AdvisoryRecord fields: its field list stops at treatment_chemical and
a lookup of preventive_measures yields nothing, contradicting the claim
that all five fields are present. -/
theorem healthy_record_missing_field :
    get_recommendation "Apple" "" = healthyRecord "Apple" ∧
    get_recommendation "Apple" "healthy" = healthyRecord "Apple" ∧
    get_recommendation "Apple" "HEALTHY" = healthyRecord "Apple" ∧
    get_recommendation "Apple" " " = healthyRecord "Apple" ∧
    (healthyRecord "Apple").map Prod.fst =
      ["disease_description", "symptoms", "treatment_organic", "treatment_chemical"] ∧
    pyDictGet (healthyRecord "Apple") "preventive_measures" = none := by
  exact ⟨by decide, by decide, by decide, by decide, by decide, by decide⟩

/-- C10: `get_recommendation` is invariant under stripping leading and
trailing whitespace from its arguments, and a disease name consisting only
of whitespace is handled exactly like the empty (healthy) disease name. -/
theorem get_recommendation_strip_invariant (crop_name disease_name : String) :
    get_recommendation crop_name disease_name =
      get_recommendation (pyStrip crop_name) (pyStrip disease_name) ∧
    ((∀ c ∈ disease_name.data, c.isWhitespace = true) →
      get_recommendation crop_name disease_name = get_recommendation crop_name "") := by
  constructor
  · simp only [get_recommendation, stripArg_pyStrip]
  · intro h
    have hsd : stripArg disease_name = "" := by
      by_cases hd : disease_name = ""
      · rw [hd]; rfl
      · rw [stripArg, if_neg hd]
        exact pyStrip_all_ws _ h
    simp only [get_recommendation, hsd]
    rfl

/-- Witness: a disease name of two blanks is handled like the empty
disease name, by C10 applied at a concrete input. -/
theorem get_recommendation_strip_invariant_witness :
    get_recommendation "Apple" "  " = get_recommendation "Apple" "" :=
  (get_recommendation_strip_invariant "Apple" "  ").2 (by decide)

/-- C4 (amended): when the predicted label contains the separator "___",
the parser returns the prefix before its first occurrence and the suffix
after it (characterised declaratively: the returned crop is the shortest
prefix admitting a separator decomposition); when the separator is absent
the parser returns the whole string together with a single blank " " - not
the empty string - as the disease component.  The two concrete labels of
the spec illustrate both cases. -/
theorem parse_label_spec (s : String) :
    ((∃ c d : String, s.data = c.data ++ "___".data ++ d.data) →
      ∃ c d : String, parseLabel s = (c, d) ∧
        s.data = c.data ++ "___".data ++ d.data ∧
        ∀ c2 d2 : String, s.data = c2.data ++ "___".data ++ d2.data →
          c.length ≤ c2.length) ∧
    ((¬ ∃ c d : String, s.data = c.data ++ "___".data ++ d.data) →
      parseLabel s = (s, " ")) ∧
    parseLabel "Apple___Apple_scab" = ("Apple", "Apple_scab") ∧
    parseLabel "Background_without_leaves" = ("Background_without_leaves", " ") := by
  have hmatch : ∀ (c2 d2 : String), s.data = c2.data ++ "___".data ++ d2.data →
      headMatches "___".data (s.data.drop c2.data.length) = true := by
    intro c2 d2 hdec
    rw [hdec, List.append_assoc, List.drop_left]
    exact (headMatches_iff _ _).mpr ⟨d2.data, rfl⟩
  refine ⟨?_, ?_, by decide, by decide⟩
  · rintro ⟨c, d, hcd⟩
    cases hfo : firstOcc "___".data s.data with
    | none =>
      have hnone := firstOcc_none _ _ hfo c.data.length
      rw [hmatch c d hcd] at hnone
      cases hnone
    | some i =>
      obtain ⟨hdec, hlen, hmin⟩ := firstOcc_some _ _ _ hfo
      refine ⟨String.mk (s.data.take i), String.mk (s.data.drop (i + 3)), ?_, ?_, ?_⟩
      · rw [parseLabel, hfo]
      · simpa using hdec
      · intro c2 d2 h2
        have hlen2 : (String.mk (s.data.take i)).length = i := by
          show (s.data.take i).length = i
          rw [List.length_take]
          omega
        rw [hlen2]
        by_contra hlt
        push_neg at hlt
        have := hmin c2.data.length (by exact hlt)
        rw [hmatch c2 d2 h2] at this
        cases this
  · intro hno
    cases hfo : firstOcc "___".data s.data with
    | none => rw [parseLabel, hfo]
    | some i =>
      obtain ⟨hdec, hlen, hmin⟩ := firstOcc_some _ _ _ hfo
      exact absurd ⟨String.mk (s.data.take i), String.mk (s.data.drop (i + 3)),
        by simpa using hdec⟩ hno

/-- Counterexample to C4 as stated: the separator-free label parses to a
single-blank disease component, not to the empty string. -/
theorem parse_label_blank_counterexample :
    parseLabel "Background_without_leaves" ≠ ("Background_without_leaves", "") := by
  decide

/-- Witness: C4 applied at the concrete separated label. -/
theorem parse_label_spec_witness :
    ∃ c d : String, parseLabel "Apple___Apple_scab" = (c, d) ∧
      "Apple___Apple_scab".data = c.data ++ "___".data ++ d.data ∧
      ∀ c2 d2 : String, "Apple___Apple_scab".data = c2.data ++ "___".data ++ d2.data →
        c.length ≤ c2.length :=
  (parse_label_spec "Apple___Apple_scab").1 ⟨"Apple", "Apple_scab", by decide⟩

/-- C3: the resolver normalizes both on-disk encodings to the same
canonical mapping.  The two concrete spec examples produce the identical
mapping; in general a non-empty raw mapping whose representative (first)
key is all digits has its keys converted to integers directly (stated for
well-formed digit-keyed files, where every key is a digit string, which is
what direct conversion requires for `int` not to raise), and a raw mapping
whose representative key is not all digits is inverted. -/
theorem class_index_normalization :
    resolveClassIndices [("0", PyVal.str "A"), ("1", PyVal.str "B")] =
      Except.ok [(PyVal.int 0, PyVal.str "A"), (PyVal.int 1, PyVal.str "B")] ∧
    resolveClassIndices [("A", PyVal.int 0), ("B", PyVal.int 1)] =
      Except.ok [(PyVal.int 0, PyVal.str "A"), (PyVal.int 1, PyVal.str "B")] ∧
    (∀ (k0 : String) (v0 : PyVal) (rest : List (String × PyVal)),
      (∀ kv ∈ (k0, v0) :: rest, strIsdigit kv.1 = true) →
      resolveClassIndices ((k0, v0) :: rest) =
        Except.ok (((k0, v0) :: rest).map fun kv =>
          (PyVal.int (Int.ofNat (digitsToNat kv.1.data)), kv.2))) ∧
    (∀ (k0 : String) (v0 : PyVal) (rest : List (String × PyVal)),
      strIsdigit k0 = false →
      resolveClassIndices ((k0, v0) :: rest) =
        Except.ok (((k0, v0) :: rest).map fun kv => (kv.2, PyVal.str kv.1))) := by
  refine ⟨rfl, rfl, ?_, ?_⟩
  · intro k0 v0 rest hall
    have hk0 : strIsdigit k0 = true := hall (k0, v0) (List.mem_cons_self _ _)
    simp only [resolveClassIndices, if_pos hk0, mapKeysToInt_ok _ hall, List.map_map]
    rfl
  · intro k0 v0 rest h
    exact resolve_label_keyed k0 v0 rest h

/-- Witness: C3 applied to a concrete one-entry digit-keyed mapping. -/
theorem class_index_normalization_witness :
    resolveClassIndices [("2", PyVal.str "X")] =
      Except.ok [(PyVal.int 2, PyVal.str "X")] := by
  have h := class_index_normalization.2.2.1 "2" (PyVal.str "X") [] (by decide)
  exact h

/-- C5 (amended): on a label-keyed raw mapping the resolver never detects
duplicate indices: inversion always succeeds, and under dict semantics a
duplicated index resolves to the label of the last entry carrying it
(silent overwrite), as the concrete duplicate example shows. -/
theorem class_index_silent_overwrite :
    (∀ (k0 : String) (v0 : PyVal) (rest : List (String × PyVal)),
      strIsdigit k0 = false →
      resolveClassIndices ((k0, v0) :: rest) =
        Except.ok (((k0, v0) :: rest).map fun kv => (kv.2, PyVal.str kv.1))) ∧
    resolveClassIndices [("A", PyVal.int 0), ("B", PyVal.int 0)] =
      Except.ok [(PyVal.int 0, PyVal.str "A"), (PyVal.int 0, PyVal.str "B")] ∧
    pyDictGet [(PyVal.int 0, PyVal.str "A"), (PyVal.int 0, PyVal.str "B")]
      (PyVal.int 0) = some (PyVal.str "B") :=
  ⟨resolve_label_keyed, rfl, by decide⟩

/-- Counterexample to C5 as stated: inverting a label-keyed mapping in
which two distinct labels share the index 0 does not fail - it produces a
mapping. -/
theorem class_index_duplicate_counterexample :
    resolveClassIndices [("A", PyVal.int 0), ("B", PyVal.int 0)] =
      Except.ok [(PyVal.int 0, PyVal.str "A"), (PyVal.int 0, PyVal.str "B")] := rfl

/-- Witness: C5's amended statement applied at a concrete label-keyed
mapping. -/
theorem class_index_silent_overwrite_witness :
    resolveClassIndices [("A", PyVal.int 0)] =
      Except.ok [(PyVal.int 0, PyVal.str "A")] := by
  have h := class_index_silent_overwrite.1 "A" (PyVal.int 0) [] (by decide)
  exact h

/-- C9: every entry of the static advisory table has a key of the form
crop ++ "___" ++ disease with non-empty crop and disease components (the
parser reconstructs the key exactly), and a record listing exactly the five
advisory fields in order, each bound to non-empty text.  The table is a
top-level constant which no operation of the embedding modifies. -/
theorem recommendations_table_wf :
    RECOMMENDATIONS.all (fun kr =>
      ((parseLabel kr.1).1 ++ "___" ++ (parseLabel kr.1).2 == kr.1) &&
      !((parseLabel kr.1).1 == "") && !((parseLabel kr.1).2 == "") &&
      (kr.2.map Prod.fst == advisoryFields) &&
      kr.2.all (fun fv => !(fv.2 == ""))) = true := by
  decide

/-- C6: for any logit vector over a non-empty class axis, the softmax
values form a probability distribution - they sum to exactly 1 in the real
model of the arithmetic and each lies in [0,1] - and the confidence
extracted by the max step is the probability of an arg-max class, hence
itself in [0,1]. -/
theorem softmax_distribution (m : ℕ) (logits : Fin (m + 1) → ℝ) :
    (∑ i, softmax logits i) = 1 ∧
    (∀ i, 0 ≤ softmax logits i ∧ softmax logits i ≤ 1) ∧
    (∃ i, maxProb (softmax logits) = softmax logits i ∧
      ∀ j, softmax logits j ≤ softmax logits i) ∧
    0 ≤ maxProb (softmax logits) ∧ maxProb (softmax logits) ≤ 1 := by
  have hS : 0 < ∑ j, Real.exp (logits j) :=
    Finset.sum_pos (fun i _ => Real.exp_pos _) ⟨0, Finset.mem_univ 0⟩
  have hnonneg : ∀ i, 0 ≤ softmax logits i := fun i =>
    div_nonneg (Real.exp_pos _).le hS.le
  have hle : ∀ i, softmax logits i ≤ 1 := by
    intro i
    rw [softmax, div_le_one hS]
    exact Finset.single_le_sum (fun j _ => (Real.exp_pos (logits j)).le) (Finset.mem_univ i)
  have hsum : (∑ i, softmax logits i) = 1 := by
    rw [show (∑ i, softmax logits i) =
        (∑ i, Real.exp (logits i)) / (∑ j, Real.exp (logits j)) from
      (Finset.sum_div _ _ _).symm]
    exact div_self hS.ne'
  obtain ⟨i0, hi0mem, hi0⟩ := Finset.exists_mem_eq_sup' ⟨0, Finset.mem_univ 0⟩ (softmax logits)
  refine ⟨hsum, fun i => ⟨hnonneg i, hle i⟩, ⟨i0, hi0, ?_⟩, ?_, ?_⟩
  · intro j
    rw [← hi0]
    exact Finset.le_sup' (softmax logits) (Finset.mem_univ j)
  · rw [maxProb, hi0]
    exact hnonneg i0
  · rw [maxProb, hi0]
    exact hle i0

/-- C7: for any non-empty probability vector, `predict_image` after the max
step fails if and only if the arg-max index is absent from the class map;
when the map covers every index below the output width the error branch is
unreachable and the call returns the mapped label with the arg-max
confidence. -/
theorem predict_image_lookup (probs : List ℚ) (idx_to_class : List (Int × String))
    (h : probs ≠ []) :
    ∃ bi bv, torchMax probs = some (bi, bv) ∧ bi < probs.length ∧
      ((∃ e, predictFromProbs probs idx_to_class = Except.error e) ↔
        pyDictGet idx_to_class (Int.ofNat bi) = none) ∧
      (∀ lbl, pyDictGet idx_to_class (Int.ofNat bi) = some lbl →
        predictFromProbs probs idx_to_class = Except.ok (lbl, bv)) ∧
      ((∀ i, i < probs.length → (pyDictGet idx_to_class (Int.ofNat i)).isSome = true) →
        ∃ lbl, pyDictGet idx_to_class (Int.ofNat bi) = some lbl ∧
          predictFromProbs probs idx_to_class = Except.ok (lbl, bv)) := by
  cases probs with
  | nil => exact absurd rfl h
  | cons x xs =>
    refine ⟨(argmaxAux 1 0 x xs).1, (argmaxAux 1 0 x xs).2, by simp [torchMax], ?_, ?_, ?_, ?_⟩
    · have hb := argmaxAux_fst_lt xs 1 0 x Nat.zero_lt_one
      simp only [List.length_cons]
      omega
    · constructor
      · rintro ⟨e, he⟩
        by_contra hne
        obtain ⟨lbl, hlbl⟩ := Option.ne_none_iff_exists'.mp hne
        rw [predictFromProbs] at he
        simp only [torchMax] at he
        rw [show (argmaxAux 1 0 x xs) = ((argmaxAux 1 0 x xs).1, (argmaxAux 1 0 x xs).2)
          from rfl] at he
        rw [hlbl] at he
        cases he
      · intro hnone
        refine ⟨"Predicted class index not found in class mappings.", ?_⟩
        rw [predictFromProbs]
        simp only [torchMax]
        rw [show (argmaxAux 1 0 x xs) = ((argmaxAux 1 0 x xs).1, (argmaxAux 1 0 x xs).2)
          from rfl]
        rw [hnone]
    · intro lbl hlbl
      rw [predictFromProbs]
      simp only [torchMax]
      rw [show (argmaxAux 1 0 x xs) = ((argmaxAux 1 0 x xs).1, (argmaxAux 1 0 x xs).2)
        from rfl]
      rw [hlbl]
    · intro hcov
      have hb := argmaxAux_fst_lt xs 1 0 x Nat.zero_lt_one
      have hsome := hcov (argmaxAux 1 0 x xs).1 (by simp only [List.length_cons]; omega)
      obtain ⟨lbl, hlbl⟩ := Option.isSome_iff_exists.mp hsome
      refine ⟨lbl, hlbl, ?_⟩
      rw [predictFromProbs]
      simp only [torchMax]
      rw [show (argmaxAux 1 0 x xs) = ((argmaxAux 1 0 x xs).1, (argmaxAux 1 0 x xs).2)
        from rfl]
      rw [hlbl]

/-- Witness: C7 applied at a concrete two-class probability vector with a
covering class map. -/
theorem predict_image_lookup_witness :
    ∃ lbl, pyDictGet [((0 : Int), "Apple___Apple_scab"), (1, "Tomato___Leaf_Mold")]
        (Int.ofNat 0) = some lbl ∧
      predictFromProbs [mkRat 1 2, mkRat 1 4]
        [((0 : Int), "Apple___Apple_scab"), (1, "Tomato___Leaf_Mold")] =
        Except.ok (lbl, mkRat 1 2) := by
  obtain ⟨bi, bv, htm, _, _, _, hcov⟩ :=
    predict_image_lookup [mkRat 1 2, mkRat 1 4]
      [((0 : Int), "Apple___Apple_scab"), (1, "Tomato___Leaf_Mold")] (by decide)
  have hbi : bi = 0 ∧ bv = mkRat 1 2 := by
    have : (0, mkRat 1 2) = (bi, bv) := by
      have h2 : some ((0 : Nat), mkRat 1 2) = some (bi, bv) := by rw [← htm]; rfl
      injection h2
    exact ⟨congrArg Prod.fst this.symm, congrArg Prod.snd this.symm⟩
  obtain ⟨h0, hv⟩ := hbi
  subst h0
  subst hv
  exact hcov (by decide)

/-- C8: for every non-empty ordered candidate list and every extensional
existence predicate, the locator returns (never raises) the first candidate
in list order that exists, and falls back to the first candidate when none
exists; since it is a pure function of the list and the predicate, its
result depends on nothing else. -/
theorem resolve_path_first_existing (ex : String → Bool) (paths : List String)
    (h : paths ≠ []) :
    ∃ p, resolvePath ex paths = Except.ok p ∧
      ((∃ q ∈ paths, ex q = true) →
        ex p = true ∧ ∃ l1 l2, paths = l1 ++ p :: l2 ∧ ∀ a ∈ l1, ex a = false) ∧
      ((∀ q ∈ paths, ex q = false) → paths.head? = some p) := by
  cases hf : paths.find? ex with
  | some p =>
    refine ⟨p, ?_, ?_, ?_⟩
    · rw [resolvePath.eq_def, hf]
    · intro _
      obtain ⟨hp, l1, l2, hdec, hfail⟩ := List.find?_eq_some.mp hf
      exact ⟨hp, l1, l2, hdec, fun a ha => by simpa using hfail a ha⟩
    · intro hall
      have hp := List.find?_some hf
      have hmem := List.mem_of_find?_eq_some hf
      rw [hall p hmem] at hp
      cases hp
  | none =>
    cases paths with
    | nil => exact absurd rfl h
    | cons q rest =>
      refine ⟨q, ?_, ?_, fun _ => rfl⟩
      · rw [resolvePath.eq_def, hf]
      · rintro ⟨r, hr, hex⟩
        have := List.find?_eq_none.mp hf r hr
        rw [hex] at this
        exact absurd rfl this

/-- Witness: C8 applied to the concrete `POSSIBLE_MODEL_PATHS` list with no
path existing - the locator falls back to the first candidate. -/
theorem resolve_path_first_existing_witness :
    resolvePath (fun _ => false) (possibleModelPaths "/r" "/b") =
      Except.ok "/r/model/saved_models/best_model.pth" := by
  obtain ⟨p, hok, _, hnone⟩ :=
    resolve_path_first_existing (fun _ => false) (possibleModelPaths "/r" "/b") (by decide)
  have hhead := hnone (by decide)
  have hp : "/r/model/saved_models/best_model.pth" = p := by
    injection hhead
  rw [← hp] at hok
  exact hok
